import Mathlib

/-!
Shallow embedding of the assoc_static crate (src/src/lib.rs).

The crate provides a trait AssocStatic with a method get_static returning
a reference to a static object associated to the Self type, plus a default
method from that ignores its argument and calls Self.get_static, and a
declarative macro assoc_static! that, for a triple (owner type T, tag type
TAG, target type TARGET) and an initializer INIT, generates one impl whose
get_static returns a reference to a fresh static tuple
  (TARGET, PhantomData (MakeSync T), PhantomData (MakeSync TAG))
initialized to (INIT, PhantomData, PhantomData).  MakeSync is a wrapper
with an unconditional unsafe Sync impl.

The embedding below models:
  - Rust types relevant to the mechanism as first-class data (RustTy),
    each carrying the fact whether the type itself implements Sync;
  - values and constant initializer expressions with a one-step evaluator;
  - a declaration (one assoc_static! invocation) and the two macro arms;
  - the type of the generated static item and the Rust rule that a static
    item is accepted only when its type implements Sync;
  - program building (compile): the Rust compiler rejects two impls for the
    same (owner, target, tag) key and rejects a non-Sync static; a
    successful build allocates one storage cell per declaration at a
    distinct address, each populated by evaluating its initializer once
    (initTrace records the evaluation events, one per declaration);
  - trait resolution (resolve) and the two accessors get_static and
    fromInstance (the latter embeds the default method from, whose body is
    Self.get_static and which never looks at its argument);
  - a read-only operational layer (runOp, runOps) making explicit that the
    accessors take shared references and never write any state.
-/

/-- A runtime value stored in a cell (the crate examples and tests use
string slices and integers). -/
inductive Value where
  | str (s : String)
  | int (n : Int)
  | unit
deriving DecidableEq, Repr

/-- A constant initializer expression, the INIT argument of the macro.
Rust requires a constant expression there; we model literals and a sample
constant arithmetic form so that evaluation is an actual computation. -/
inductive InitExpr where
  | const (v : Value)
  | addInt (a b : InitExpr)
deriving DecidableEq, Repr

/-- Constant evaluation of an initializer, performed once when the static
item is created. -/
def evalInit : InitExpr → Value
  | .const v => v
  | .addInt a b =>
    match evalInit a, evalInit b with
    | .int x, .int y => .int (x + y)
    | _, _ => .unit

/-- A Rust type as far as this mechanism observes it: a name (type
identity, compared exactly, no subtyping) and whether the type itself
implements the Sync marker trait. -/
structure RustTy where
  name : String
  sync : Bool
deriving DecidableEq, Repr

/-- The Rust unit type (), used as the default tag by the three-argument
macro arm. It implements Sync. -/
def unitTy : RustTy := ⟨"()", true⟩

/-- The compile-time key of an association: the triple of owner type,
target type and tag type. Two keys are equal iff all three components
match exactly. -/
structure Key where
  owner : RustTy
  target : RustTy
  tag : RustTy
deriving DecidableEq, Repr

/-- One invocation of the assoc_static! macro: owner type T, tag type TAG,
target type TARGET, initializer INIT. -/
structure Decl where
  owner : RustTy
  tag : RustTy
  target : RustTy
  init : InitExpr
deriving DecidableEq, Repr

/-- The four-argument macro arm: assoc_static!(T, TAG, TARGET, INIT). -/
def assocStaticTagged (T TAG TARGET : RustTy) (INIT : InitExpr) : Decl :=
  ⟨T, TAG, TARGET, INIT⟩

/-- The three-argument macro arm: assoc_static!(T, TARGET, INIT); it
implements AssocStatic with the unit type () as the tag. -/
def assocStaticUntagged (T TARGET : RustTy) (INIT : InitExpr) : Decl :=
  ⟨T, unitTy, TARGET, INIT⟩

/-- The key of a declaration. -/
def Key.ofDecl (d : Decl) : Key := ⟨d.owner, d.target, d.tag⟩

/-- The shape of the type of the generated static item, as the Sync check
observes it: a named type, PhantomData of a type, the MakeSync wrapper
around a named type, the unit type, or a 3-tuple. -/
inductive StaticTy where
  | plain (t : RustTy)
  | phantomData (t : StaticTy)
  | makeSync (t : RustTy)
  | unitMarker
  | tuple3 (a b c : StaticTy)
deriving DecidableEq, Repr

/-- Whether a type implements Sync, by the Rust rules: a named type by its
own declaration; PhantomData of a type iff that type does; MakeSync
unconditionally, by the unsafe impl Sync for MakeSync in lib.rs; the unit
type does; a tuple iff all components do. -/
def StaticTy.isSync : StaticTy → Bool
  | .plain t => t.sync
  | .phantomData t => t.isSync
  | .makeSync _ => true
  | .unitMarker => true
  | .tuple3 a b c => a.isSync && b.isSync && c.isSync

/-- The type of the static item generated by the four-argument arm:
(TARGET, PhantomData (MakeSync T), PhantomData (MakeSync TAG)). Note that
the payload component is the plain TARGET, not wrapped in MakeSync. -/
def staticTupleTy (T TAG TARGET : RustTy) : StaticTy :=
  .tuple3 (.plain TARGET) (.phantomData (.makeSync T)) (.phantomData (.makeSync TAG))

/-- The type of the static item generated by the three-argument arm:
(TARGET, PhantomData (MakeSync T), PhantomData ()). -/
def staticTupleTyUntagged (T TARGET : RustTy) : StaticTy :=
  .tuple3 (.plain TARGET) (.phantomData (.makeSync T)) (.phantomData .unitMarker)

/-- Rust accepts a static item iff its type implements Sync. -/
def staticAccepted (ty : StaticTy) : Bool := ty.isSync

/-- Whether the static item generated for one declaration passes the Sync
check. The tagged and untagged arms generate types whose Sync status
coincides (proved below), so the tagged shape is used uniformly here. -/
def declSyncOk (d : Decl) : Bool := staticAccepted (staticTupleTy d.owner d.tag d.target)

/-- One storage cell: a storage identity (address) and the contents
written at creation. -/
structure Cell where
  addr : Nat
  value : Value
deriving DecidableEq, Repr

/-- One generated impl of AssocStatic: its key and its static cell. -/
structure Impl where
  key : Key
  cell : Cell
deriving DecidableEq, Repr

/-- A successfully built program: the list of generated impls. -/
abbrev Program := List Impl

/-- Build the impls for a list of declarations, allocating cell addresses
n, n+1, ... in order; each cell is populated with the value of its
initializer. -/
def buildImpls : List Decl → Nat → List Impl
  | [], _ => []
  | d :: ds, n => ⟨Key.ofDecl d, ⟨n, evalInit d.init⟩⟩ :: buildImpls ds (n + 1)

/-- The trace of initializer evaluation events during the build: one event
(recorded by key) each time a static item is populated. -/
def initTrace (ds : List Decl) : List Key := ds.map Key.ofDecl

/-- The build-time checks: no two declarations share a key (two impls of
the same trait for the same type are a coherence error), and every
generated static item passes the Sync check. -/
def checkDecls (ds : List Decl) : Bool :=
  decide (ds.map Key.ofDecl).Nodup && ds.all declSyncOk

/-- Compile a list of declarations: reject key collisions and non-Sync
statics at build time, otherwise allocate the cells. -/
def compile (ds : List Decl) : Option Program :=
  if checkDecls ds then some (buildImpls ds 0) else none

/-- Trait resolution: find the impl of AssocStatic for the given key. -/
def resolve (p : Program) (k : Key) : Option Impl :=
  p.find? (fun i => i.key == k)

/-- The by-key accessor get_static, resolved for (owner, target, tag):
returns a reference to the cell of the unique impl for that key, or fails
to build (none) when no impl exists. -/
def get_static (p : Program) (owner target tag : RustTy) : Option Cell :=
  (resolve p ⟨owner, target, tag⟩).map Impl.cell

/-- A live instance of an owner type: its type and a runtime payload. -/
structure Instance where
  ty : RustTy
  payload : Value
deriving DecidableEq, Repr

/-- The instance-based accessor, the default trait method from: its body
is Self.get_static, the argument is bound as an unused parameter. -/
def fromInstance (p : Program) (this : Instance) (target tag : RustTy) : Option Cell :=
  get_static p this.ty target tag

/-- A runtime operation on the built program: one accessor call. -/
inductive Op where
  | getStaticOp (owner target tag : RustTy)
  | fromOp (inst : Instance) (target tag : RustTy)
deriving DecidableEq, Repr

/-- Run one accessor call against the state holding the static cells. The
generated accessor bodies only take a shared reference to the static, so
the state after the call is the state before it. -/
def runOp (p : Program) : Op → Option Cell × Program
  | .getStaticOp o t g => (get_static p o t g, p)
  | .fromOp i t g => (fromInstance p i t g, p)

/-- Run a sequence of accessor calls, threading the state. -/
def runOps (p : Program) : List Op → List (Option Cell) × Program
  | [] => ([], p)
  | op :: ops =>
    let r := runOp p op
    let rest := runOps r.2 ops
    (r.1 :: rest.1, rest.2)

/-! Concrete declarations used as witnesses, mirroring the doctests and
tests of lib.rs: an owner A with an untagged string, the same owner with
two tagged strings, and a second owner B. -/

/-- Example owner type. -/
def tyA : RustTy := ⟨"Example", true⟩

/-- Second example owner type. -/
def tyB : RustTy := ⟨"TestType2", true⟩

/-- The target type of the doctests, a static string slice. -/
def tyStr : RustTy := ⟨"static str", true⟩

/-- First tag marker type. -/
def tyT1 : RustTy := ⟨"Hello", true⟩

/-- Second tag marker type. -/
def tyT2 : RustTy := ⟨"ExplainType", true⟩

/-- A target type that does not implement Sync (in Rust, Cell of i32). -/
def tyNonSync : RustTy := ⟨"Cell of i32", false⟩

/-- Example program: four associations with pairwise distinct keys. -/
def exDecls : List Decl :=
  [ assocStaticUntagged tyA tyStr (.const (.str "hello")),
    assocStaticTagged tyA tyT1 tyStr (.const (.str "x")),
    assocStaticTagged tyA tyT2 tyStr (.const (.str "y")),
    assocStaticUntagged tyB tyStr (.const (.str "world")) ]

/-- The impls generated for the example program. -/
def exProgram : Program := buildImpls exDecls 0

/-! Helper lemmas. -/

/-- Unfolding a successful compile: the keys are nodup, every static
passes the Sync check, and the program is the built impl list. -/
theorem compile_eq_some {ds : List Decl} {p : Program} (h : compile ds = some p) :
    (ds.map Key.ofDecl).Nodup ∧ (∀ d ∈ ds, declSyncOk d = true) ∧ p = buildImpls ds 0 := by
  unfold compile at h
  by_cases hc : checkDecls ds = true
  · refine ⟨?_, ?_, ?_⟩
    · have := (Bool.and_eq_true _ _).mp hc
      exact of_decide_eq_true this.1
    · have := (Bool.and_eq_true _ _).mp hc
      exact fun d hd => List.all_eq_true.mp this.2 d hd
    · simp [hc] at h
      exact h.symm
  · simp [hc] at h

/-- The keys of the built impls are the keys of the declarations. -/
theorem buildImpls_map_key (ds : List Decl) (n : Nat) :
    (buildImpls ds n).map Impl.key = ds.map Key.ofDecl := by
  induction ds generalizing n with
  | nil => rfl
  | cons d ds ih => simp [buildImpls, ih]

/-- Every cell allocated from offset n has address at least n. -/
theorem buildImpls_addr_lb {ds : List Decl} {n : Nat} {i : Impl}
    (h : i ∈ buildImpls ds n) : n ≤ i.cell.addr := by
  induction ds generalizing n with
  | nil => cases h
  | cons d ds ih =>
    simp only [buildImpls, List.mem_cons] at h
    rcases h with h | h
    · simp [h]
    · exact Nat.le_of_succ_le (ih h)

/-- Cell addresses identify impls: two built impls with the same address
are the same impl. -/
theorem buildImpls_addr_inj {ds : List Decl} {n : Nat} {i1 i2 : Impl}
    (h1 : i1 ∈ buildImpls ds n) (h2 : i2 ∈ buildImpls ds n)
    (ha : i1.cell.addr = i2.cell.addr) : i1 = i2 := by
  induction ds generalizing n with
  | nil => cases h1
  | cons d ds ih =>
    simp only [buildImpls, List.mem_cons] at h1 h2
    rcases h1 with h1 | h1 <;> rcases h2 with h2 | h2
    · rw [h1, h2]
    · exfalso
      have := buildImpls_addr_lb h2
      rw [h1] at ha
      simp at ha
      omega
    · exfalso
      have := buildImpls_addr_lb h1
      rw [h2] at ha
      simp at ha
      omega
    · exact ih h1 h2

/-- A resolved impl is a member of the program and has the queried key. -/
theorem resolve_eq_some {p : Program} {k : Key} {i : Impl}
    (h : resolve p k = some i) : i ∈ p ∧ i.key = k := by
  refine ⟨List.mem_of_find?_eq_some h, ?_⟩
  have := List.find?_some h
  exact eq_of_beq this

/-- Resolution for the key of a declared association finds an impl
carrying that key and the once-evaluated initializer of that declaration. -/
theorem resolve_buildImpls {ds : List Decl} {d : Decl}
    (hnd : (ds.map Key.ofDecl).Nodup) (hd : d ∈ ds) (n : Nat) :
    ∃ a, resolve (buildImpls ds n) (Key.ofDecl d) =
      some ⟨Key.ofDecl d, ⟨a, evalInit d.init⟩⟩ := by
  induction ds generalizing n with
  | nil => cases hd
  | cons d0 ds ih =>
    simp only [List.map_cons, List.nodup_cons] at hnd
    by_cases hk : Key.ofDecl d0 = Key.ofDecl d
    · have hdd : d = d0 := by
        rcases List.mem_cons.mp hd with h | h
        · exact h
        · exfalso
          exact hnd.1 (hk ▸ List.mem_map_of_mem Key.ofDecl h)
      refine ⟨n, ?_⟩
      simp [buildImpls, resolve, List.find?_cons, hdd]
    · have hd' : d ∈ ds := by
        rcases List.mem_cons.mp hd with h | h
        · exact absurd (h ▸ rfl) hk
        · exact h
      rcases ih hnd.2 hd' (n + 1) with ⟨a, ha⟩
      refine ⟨a, ?_⟩
      have hne : (Key.ofDecl d0 == Key.ofDecl d) = false := by
        simp [hk]
      simp [buildImpls, resolve, List.find?_cons, hne] at ha ⊢
      exact ha

/-- Exactly one impl in the built program carries the key of a declared
association. -/
theorem countP_key_eq_one {ds : List Decl} {d : Decl}
    (hnd : (ds.map Key.ofDecl).Nodup) (hd : d ∈ ds) (n : Nat) :
    (buildImpls ds n).countP (fun i => i.key == Key.ofDecl d) = 1 := by
  have h1 : (buildImpls ds n).countP (fun i => i.key == Key.ofDecl d) =
      ((buildImpls ds n).map Impl.key).count (Key.ofDecl d) := by
    simp [List.count, List.countP_map]
    rfl
  rw [h1, buildImpls_map_key]
  exact List.count_eq_one_of_mem hnd (List.mem_map_of_mem Key.ofDecl hd)

/-- Reading a static never changes the state: the state component of one
accessor call is the input state. -/
theorem runOp_state (p : Program) (op : Op) : (runOp p op).2 = p := by
  cases op <;> rfl

/-- Impls of a successfully built program are determined by their key:
key collisions were rejected at build time. -/
theorem key_inj_of_nodup {ds : List Decl} (hnd : (ds.map Key.ofDecl).Nodup)
    {i1 i2 : Impl} (m1 : i1 ∈ buildImpls ds 0) (m2 : i2 ∈ buildImpls ds 0)
    (hk : i1.key = i2.key) : i1 = i2 := by
  have hmap : ((buildImpls ds 0).map Impl.key).Nodup := by
    rw [buildImpls_map_key]
    exact hnd
  exact List.inj_on_of_nodup_map hmap m1 m2 hk

/-! The claims. -/

/-- Claim C1: for every association declared with assoc_static! (owner,
optional tag, target, initializer INIT), the generated get_static returns
a reference whose contents equal the value of INIT, and the build
evaluates INIT exactly once to populate the storage cell (the evaluation
trace holds exactly one event for the key of the declaration). -/
theorem get_static_returns_init {ds : List Decl} {p : Program} {d : Decl}
    (hc : compile ds = some p) (hd : d ∈ ds) :
    (get_static p d.owner d.target d.tag).map Cell.value = some (evalInit d.init) ∧
    (initTrace ds).count (Key.ofDecl d) = 1 := by
  obtain ⟨hnd, _, hp⟩ := compile_eq_some hc
  subst hp
  constructor
  · obtain ⟨a, ha⟩ := resolve_buildImpls hnd hd 0
    show ((resolve (buildImpls ds 0) (Key.ofDecl d)).map Impl.cell).map Cell.value =
      some (evalInit d.init)
    rw [ha]
    rfl
  · exact List.count_eq_one_of_mem hnd (List.mem_map_of_mem Key.ofDecl hd)

/-- Witness for claim C1 at the concrete program: the untagged string
association of owner Example holds the value hello and was initialized
exactly once. -/
theorem get_static_returns_init_witness :
    compile exDecls = some exProgram ∧
    ((get_static exProgram tyA tyStr unitTy).map Cell.value = some (Value.str "hello") ∧
      (initTrace exDecls).count ⟨tyA, tyStr, unitTy⟩ = 1) :=
  ⟨by decide, @get_static_returns_init exDecls exProgram
    (assocStaticUntagged tyA tyStr (.const (.str "hello"))) (by decide) (by decide)⟩

/-- Claim C2: the instance-based accessor from returns exactly the result
of the explicit-key accessor get_static for the same (owner, target, tag)
triple, and it never creates a new cell: every cell it returns is one of
the cells built into the program. -/
theorem fromInstance_eq_get_static (p : Program) (inst : Instance) (target tag : RustTy) :
    fromInstance p inst target tag = get_static p inst.ty target tag ∧
    ∀ c, fromInstance p inst target tag = some c → ∃ i, i ∈ p ∧ i.cell = c := by
  refine ⟨rfl, ?_⟩
  intro c hc
  cases hr : resolve p ⟨inst.ty, target, tag⟩ with
  | none =>
    rw [show fromInstance p inst target tag =
      (resolve p ⟨inst.ty, target, tag⟩).map Impl.cell from rfl, hr] at hc
    cases hc
  | some i =>
    rw [show fromInstance p inst target tag =
      (resolve p ⟨inst.ty, target, tag⟩).map Impl.cell from rfl, hr] at hc
    obtain ⟨hm, _⟩ := resolve_eq_some hr
    exact ⟨i, hm, Option.some.inj hc⟩

/-- Witness for claim C2 at the concrete program: from on an instance of
owner Example agrees with get_static, and the returned cell is one of the
built cells. -/
theorem fromInstance_eq_get_static_witness :
    (fromInstance exProgram ⟨tyA, Value.int 7⟩ tyStr unitTy =
      get_static exProgram tyA tyStr unitTy) ∧
    (fromInstance exProgram ⟨tyA, Value.int 7⟩ tyStr unitTy =
      some ⟨0, Value.str "hello"⟩) ∧
    ∃ i, i ∈ exProgram ∧ i.cell = (⟨0, Value.str "hello"⟩ : Cell) :=
  ⟨(fromInstance_eq_get_static exProgram ⟨tyA, Value.int 7⟩ tyStr unitTy).1,
   by decide,
   (fromInstance_eq_get_static exProgram ⟨tyA, Value.int 7⟩ tyStr unitTy).2
     ⟨0, Value.str "hello"⟩ (by decide)⟩

/-- Claim C3: for every declared association exactly one storage cell
exists in the built program, get_static returns precisely that cell
whenever an impl carries the key, and repeated accessor calls within one
run return the same reference with the same contents. -/
theorem one_cell_per_association {ds : List Decl} {p : Program} {d : Decl}
    (hc : compile ds = some p) (hd : d ∈ ds) :
    p.countP (fun i => i.key == Key.ofDecl d) = 1 ∧
    (∀ i, i ∈ p → i.key = Key.ofDecl d →
      get_static p d.owner d.target d.tag = some i.cell) ∧
    (runOps p [Op.getStaticOp d.owner d.target d.tag,
               Op.getStaticOp d.owner d.target d.tag]).1 =
      [get_static p d.owner d.target d.tag, get_static p d.owner d.target d.tag] := by
  obtain ⟨hnd, _, hp⟩ := compile_eq_some hc
  subst hp
  refine ⟨countP_key_eq_one hnd hd 0, ?_, rfl⟩
  intro i hm hk
  obtain ⟨a, ha⟩ := resolve_buildImpls hnd hd 0
  obtain ⟨hm0, hk0⟩ := resolve_eq_some ha
  have : i = ⟨Key.ofDecl d, ⟨a, evalInit d.init⟩⟩ :=
    key_inj_of_nodup hnd hm hm0 (by rw [hk, hk0])
  show (resolve (buildImpls ds 0) (Key.ofDecl d)).map Impl.cell = some i.cell
  rw [ha, this]
  rfl

/-- Witness for claim C3 at the concrete program: the key of the untagged
association of owner Example has exactly one cell, which get_static
returns, and two successive calls return the same reference. -/
theorem one_cell_per_association_witness :
    compile exDecls = some exProgram ∧
    exProgram.countP (fun i => i.key == (⟨tyA, tyStr, unitTy⟩ : Key)) = 1 ∧
    get_static exProgram tyA tyStr unitTy = some ⟨0, Value.str "hello"⟩ ∧
    (runOps exProgram [Op.getStaticOp tyA tyStr unitTy,
                       Op.getStaticOp tyA tyStr unitTy]).1 =
      [get_static exProgram tyA tyStr unitTy, get_static exProgram tyA tyStr unitTy] := by
  have h := @one_cell_per_association exDecls exProgram
    (assocStaticUntagged tyA tyStr (.const (.str "hello"))) (by decide) (by decide)
  exact ⟨by decide, h.1,
    h.2.1 ⟨⟨tyA, tyStr, unitTy⟩, ⟨0, Value.str "hello"⟩⟩ (by decide) rfl, h.2.2⟩

/-- Impls resolved for two distinct keys sit at distinct cell addresses. -/
theorem resolved_addrs_distinct {ds : List Decl} {k1 k2 : Key} {i1 i2 : Impl}
    (r1 : resolve (buildImpls ds 0) k1 = some i1)
    (r2 : resolve (buildImpls ds 0) k2 = some i2)
    (hk : k1 ≠ k2) : i1.cell.addr ≠ i2.cell.addr := by
  obtain ⟨m1, hk1⟩ := resolve_eq_some r1
  obtain ⟨m2, hk2⟩ := resolve_eq_some r2
  intro ha
  have := buildImpls_addr_inj m1 m2 ha
  exact hk (by rw [← hk1, ← hk2, this])

/-- Claim C4: two associations declared for the same owner and the same
target under distinct tags resolve independently: get_static under each
tag returns the value of its own initializer, and the two storage cells
are distinct. -/
theorem tag_independence {ds : List Decl} {p : Program} {d1 d2 : Decl}
    (hc : compile ds = some p) (h1 : d1 ∈ ds) (h2 : d2 ∈ ds)
    (hown : d1.owner = d2.owner) (htgt : d1.target = d2.target)
    (htag : d1.tag ≠ d2.tag) :
    (get_static p d1.owner d1.target d1.tag).map Cell.value = some (evalInit d1.init) ∧
    (get_static p d2.owner d2.target d2.tag).map Cell.value = some (evalInit d2.init) ∧
    (get_static p d1.owner d1.target d1.tag).map Cell.addr ≠
      (get_static p d2.owner d2.target d2.tag).map Cell.addr := by
  obtain ⟨hnd, _, hp⟩ := compile_eq_some hc
  subst hp
  obtain ⟨a1, ha1⟩ := resolve_buildImpls hnd h1 0
  obtain ⟨a2, ha2⟩ := resolve_buildImpls hnd h2 0
  have hkne : Key.ofDecl d1 ≠ Key.ofDecl d2 := fun h => htag (congrArg Key.tag h)
  refine ⟨?_, ?_, ?_⟩
  · show ((resolve (buildImpls ds 0) (Key.ofDecl d1)).map Impl.cell).map Cell.value = _
    rw [ha1]
    rfl
  · show ((resolve (buildImpls ds 0) (Key.ofDecl d2)).map Impl.cell).map Cell.value = _
    rw [ha2]
    rfl
  · have hne := resolved_addrs_distinct ha1 ha2 hkne
    show ((resolve (buildImpls ds 0) (Key.ofDecl d1)).map Impl.cell).map Cell.addr ≠
      ((resolve (buildImpls ds 0) (Key.ofDecl d2)).map Impl.cell).map Cell.addr
    rw [ha1, ha2]
    simpa using hne

/-- Witness for claim C4 at the concrete program: the two tagged string
associations of owner Example return x and y respectively, from cells at
distinct addresses. -/
theorem tag_independence_witness :
    compile exDecls = some exProgram ∧
    ((get_static exProgram tyA tyStr tyT1).map Cell.value = some (Value.str "x") ∧
     (get_static exProgram tyA tyStr tyT2).map Cell.value = some (Value.str "y") ∧
     (get_static exProgram tyA tyStr tyT1).map Cell.addr ≠
       (get_static exProgram tyA tyStr tyT2).map Cell.addr) :=
  ⟨by decide, @tag_independence exDecls exProgram
    (assocStaticTagged tyA tyT1 tyStr (.const (.str "x")))
    (assocStaticTagged tyA tyT2 tyStr (.const (.str "y")))
    (by decide) (by decide) (by decide) rfl rfl (by decide)⟩

/-- Claim C5: associating the same target type (same tag) to two different
owner types yields independent associations: each owner resolves to the
value of its own initializer, and the two storage cells are distinct, so
neither declaration nor access of one affects the other. -/
theorem owner_independence {ds : List Decl} {p : Program} {d1 d2 : Decl}
    (hc : compile ds = some p) (h1 : d1 ∈ ds) (h2 : d2 ∈ ds)
    (hown : d1.owner ≠ d2.owner) (htgt : d1.target = d2.target)
    (htag : d1.tag = d2.tag) :
    (get_static p d1.owner d1.target d1.tag).map Cell.value = some (evalInit d1.init) ∧
    (get_static p d2.owner d2.target d2.tag).map Cell.value = some (evalInit d2.init) ∧
    (get_static p d1.owner d1.target d1.tag).map Cell.addr ≠
      (get_static p d2.owner d2.target d2.tag).map Cell.addr := by
  obtain ⟨hnd, _, hp⟩ := compile_eq_some hc
  subst hp
  obtain ⟨a1, ha1⟩ := resolve_buildImpls hnd h1 0
  obtain ⟨a2, ha2⟩ := resolve_buildImpls hnd h2 0
  have hkne : Key.ofDecl d1 ≠ Key.ofDecl d2 := fun h => hown (congrArg Key.owner h)
  refine ⟨?_, ?_, ?_⟩
  · show ((resolve (buildImpls ds 0) (Key.ofDecl d1)).map Impl.cell).map Cell.value = _
    rw [ha1]
    rfl
  · show ((resolve (buildImpls ds 0) (Key.ofDecl d2)).map Impl.cell).map Cell.value = _
    rw [ha2]
    rfl
  · have hne := resolved_addrs_distinct ha1 ha2 hkne
    show ((resolve (buildImpls ds 0) (Key.ofDecl d1)).map Impl.cell).map Cell.addr ≠
      ((resolve (buildImpls ds 0) (Key.ofDecl d2)).map Impl.cell).map Cell.addr
    rw [ha1, ha2]
    simpa using hne

/-- Witness for claim C5 at the concrete program: the untagged string
associations of the two owners return hello and world respectively, from
cells at distinct addresses. -/
theorem owner_independence_witness :
    compile exDecls = some exProgram ∧
    ((get_static exProgram tyA tyStr unitTy).map Cell.value = some (Value.str "hello") ∧
     (get_static exProgram tyB tyStr unitTy).map Cell.value = some (Value.str "world") ∧
     (get_static exProgram tyA tyStr unitTy).map Cell.addr ≠
       (get_static exProgram tyB tyStr unitTy).map Cell.addr) :=
  ⟨by decide, @owner_independence exDecls exProgram
    (assocStaticUntagged tyA tyStr (.const (.str "hello")))
    (assocStaticUntagged tyB tyStr (.const (.str "world")))
    (by decide) (by decide) (by decide) (by decide) rfl rfl⟩

/-- Claim C6: the three-argument macro arm is the four-argument arm with
the unit type () as the tag: the generated declarations are equal as data
(same key, same initializer, hence identical cells and identical
get_static and from behavior in every program), and the generated static
items have the same Sync acceptance. -/
theorem untagged_arm_eq_tagged_unit (T TARGET : RustTy) (INIT : InitExpr) :
    assocStaticUntagged T TARGET INIT = assocStaticTagged T unitTy TARGET INIT ∧
    staticAccepted (staticTupleTyUntagged T TARGET) =
      staticAccepted (staticTupleTy T unitTy TARGET) :=
  ⟨rfl, rfl⟩

/-- Counterexample to claim C7: the payload component of the generated
static item is the plain target type, not wrapped in MakeSync (only the
owner and tag markers inside PhantomData are wrapped), so a declaration
whose target type is not Sync generates a non-Sync static and is rejected
at build time instead of being accepted. -/
theorem nonSync_target_rejected :
    staticTupleTy tyA tyT1 tyNonSync =
      StaticTy.tuple3 (.plain tyNonSync) (.phantomData (.makeSync tyA))
        (.phantomData (.makeSync tyT1)) ∧
    staticAccepted (staticTupleTy tyA tyT1 tyNonSync) = false ∧
    compile [assocStaticTagged tyA tyT1 tyNonSync (.const .unit)] = none :=
  ⟨rfl, rfl, by decide⟩

/-- Claim C7 amended: MakeSync wraps the owner type and the tag type
inside the PhantomData components of the generated static item, making
those components shareable across threads regardless of whether owner or
tag are Sync; the payload stays the plain target type, so the declaration
is accepted exactly when the target type itself is Sync. -/
theorem makeSync_wraps_markers (T TAG TARGET : RustTy) :
    staticAccepted (staticTupleTy T TAG TARGET) = TARGET.sync ∧
    (StaticTy.phantomData (.makeSync T)).isSync = true ∧
    (StaticTy.phantomData (.makeSync TAG)).isSync = true := by
  refine ⟨?_, rfl, rfl⟩
  simp [staticAccepted, staticTupleTy, StaticTy.isSync]

/-- Claim C8: no operation mutates a storage cell: running any sequence of
accessor calls leaves the whole state (every cell of every association)
exactly as built, and each call returns what it returns on the pristine
state; cells are written only at creation, never thereafter. -/
theorem accessors_never_mutate (p : Program) (ops : List Op) :
    (runOps p ops).2 = p ∧
    (runOps p ops).1 = ops.map (fun op => (runOp p op).1) := by
  induction ops with
  | nil => exact ⟨rfl, rfl⟩
  | cons op ops ih =>
    have hs : (runOp p op).2 = p := runOp_state p op
    constructor
    · show (runOps (runOp p op).2 ops).2 = p
      rw [hs]
      exact ih.1
    · show (runOp p op).1 :: (runOps (runOp p op).2 ops).1 =
        (runOp p op).1 :: ops.map (fun op => (runOp p op).1)
      rw [hs]
      exact congrArg (List.cons (runOp p op).1) ih.2

/-- Claim C9: both accessors are total at runtime: for every declared
association, get_static returns a reference (resolution succeeds, no
failure, panic or blocking path exists in the embedding, which is a total
function), and from on any instance of the owner returns exactly the
get_static reference. -/
theorem accessors_total {ds : List Decl} {p : Program} {d : Decl}
    (hc : compile ds = some p) (hd : d ∈ ds) :
    (get_static p d.owner d.target d.tag).isSome = true ∧
    ∀ v : Value, fromInstance p ⟨d.owner, v⟩ d.target d.tag =
      get_static p d.owner d.target d.tag := by
  obtain ⟨hnd, _, hp⟩ := compile_eq_some hc
  subst hp
  refine ⟨?_, fun v => rfl⟩
  obtain ⟨a, ha⟩ := resolve_buildImpls hnd hd 0
  show ((resolve (buildImpls ds 0) (Key.ofDecl d)).map Impl.cell).isSome = true
  rw [ha]
  rfl

/-- Witness for claim C9 at the concrete program: the untagged string
association of the second owner resolves successfully and from agrees. -/
theorem accessors_total_witness :
    compile exDecls = some exProgram ∧
    ((get_static exProgram tyB tyStr unitTy).isSome = true ∧
     fromInstance exProgram ⟨tyB, Value.unit⟩ tyStr unitTy =
       get_static exProgram tyB tyStr unitTy) := by
  have h := @accessors_total exDecls exProgram
    (assocStaticUntagged tyB tyStr (.const (.str "world"))) (by decide) (by decide)
  exact ⟨by decide, h.1, h.2 Value.unit⟩

/-- Claim C10: the result of the instance-based accessor is independent of
the runtime value of the instance: two instances of the same owner type
yield the same reference, since the default method from discards its
argument and resolution depends only on the three types. -/
theorem fromInstance_ignores_payload (p : Program) (t : RustTy) (v1 v2 : Value)
    (target tag : RustTy) :
    fromInstance p ⟨t, v1⟩ target tag = fromInstance p ⟨t, v2⟩ target tag := rfl
